import Mathlib

/-!
Verification of the cbzetto CBZ viewer core (src/main.py) against its
natural-language specification.

The viewer's core is shallowly embedded below:

* Layout model (`update_heights`, lines 171-184): `scaledHeight`,
  `cumulativeHeights`, `running_total`, `total_height`.
* Offset-to-page lookup (`on_scroll`, lines 199-209): `findFirstGt`,
  `pageAtOffset`.
* Window sweep (`on_scroll`, lines 211-218): `sweepCache`, `onScrollSweep`.
* Page cache (`PageLabel.load_pixmap` / `unload_pixmap`, lines 20-50):
  `load_pixmap_state`, `unload_pixmap_state`.
* Catalog loading (`load_folder`, lines 111-148; `load_single_cbz`,
  lines 150-169): `load_folder`, `load_single_cbz`.
* Session state (`restore_state`, lines 241-253; `closeEvent`,
  lines 255-265): `save_state`, `restore_state`.

Machine arithmetic on pixel dimensions is modelled exactly over ℕ:
Python's `int(orig_height * (width / orig_width))` is truncation of the
real quotient, i.e. `orig_height * width / orig_width` in ℕ for
non-negative inputs (float rounding deviations are out of scope).
External collaborators (archive reader, image decoder, filesystem) are
parameters: the archive reader is a `String → Option (List String)`
name-list oracle, the dimension probe a `String → Option (ℕ × ℕ)`, a
decode outcome a `Bool`, and the persistence store a
`String → Option (Option StoredState)` map.
-/

/-- Per-page scaled height, from `update_heights` lines 178-179 (the same
expression appears in `load_pixmap` lines 32-33):
`scale_factor = width / orig_width if orig_width > 0 else 1`;
`height = int(orig_height * scale_factor) if orig_height > 0 else 100`. -/
def scaledHeight (w ow oh : ℕ) : ℕ :=
  if 0 < oh then (if 0 < ow then oh * w / ow else oh) else 100

/-- What the spec's words say the scaled height is:
`round(naturalHeight * viewportWidth / naturalWidth)`, with the fixed
fallback `100` when `naturalWidth <= 0`.  Rounding is half-up on the exact
rational: `round(a/b) = (2*a + b) / (2*b)` in ℕ.  This definition follows
the SPEC, not the source; it exists to be compared with `scaledHeight`. -/
def scaledHeightSpec (w ow oh : ℕ) : ℕ :=
  if 0 < ow then (2 * (oh * w) + ow) / (2 * ow) else 100

/-- The cumulative-height list built by the loop of `update_heights`
lines 173-181, starting from running value `acc`: each page appends
`acc + height` and threads the new running value. -/
def cumulativeFrom (w acc : ℕ) : List (ℕ × ℕ) → List ℕ
  | [] => []
  | (ow, oh) :: rest =>
      (acc + scaledHeight w ow oh) :: cumulativeFrom w (acc + scaledHeight w ow oh) rest

/-- `self.cumulative_heights` after `update_heights`: `[0]` followed by the
running sums (lines 173-181).  `sizes` is the page sequence's natural
`(width, height)` pairs in global-page order, `w` the viewport width. -/
def cumulativeHeights (sizes : List (ℕ × ℕ)) (w : ℕ) : List ℕ :=
  0 :: cumulativeFrom w 0 sizes

/-- The final value of the `cumulative` loop variable of `update_heights`
(the sum of all scaled heights), threaded from `acc`. -/
def running_total (w acc : ℕ) : List (ℕ × ℕ) → ℕ
  | [] => acc
  | (ow, oh) :: rest => running_total w (acc + scaledHeight w ow oh) rest

/-- `self.total_height` after `update_heights` line 183:
`cumulative if cumulative > 0 else 100`. -/
def total_height (sizes : List (ℕ × ℕ)) (w : ℕ) : ℕ :=
  if 0 < running_total w 0 sizes then running_total w 0 sizes else 100

/-- Index of the first list element strictly greater than `offset`
(`next(i for i, cum in enumerate(...) if cum > scroll_pos)` in
`on_scroll` lines 200 and 204); `none` is the `StopIteration` case. -/
def findFirstGt (offset : ℕ) : List ℕ → Option ℕ
  | [] => none
  | c :: rest => if offset < c then some 0 else (findFirstGt offset rest).map (· + 1)

/-- The offset-to-page lookup of `on_scroll` lines 199-209: first index of
the cumulative list strictly above `offset`, minus one; on exhaustion
`totalPages - 1`; clamped below by 0 (ℕ subtraction is the Python
`max(0, i - 1)` for the indices that can arise). -/
def pageAtOffset (cum : List ℕ) (totalPages offset : ℕ) : ℕ :=
  match findFirstGt offset cum with
  | some i => i - 1
  | none => totalPages - 1

/-- The cache effect of `PageLabel.load_pixmap` (lines 20-43) on one page's
entry.  An entry is `none` (absent) or `some w` (a pixmap decoded for
viewport width `w`).  `ok` is the outcome of the decode/scale attempt
(the `try` body): on success the entry becomes `some w`; the `except`
branch only logs, so on failure the entry is left unchanged; if the entry
is already `some w` the method returns early. -/
def load_pixmap_state (w : ℕ) (ok : Bool) (prev : Option ℕ) : Option ℕ :=
  if prev = some w then prev
  else if ok then some w
  else prev

/-- The cache effect of `PageLabel.unload_pixmap` (lines 45-50): the entry
becomes absent (the early return when already absent yields the same). -/
def unload_pixmap_state (_prev : Option ℕ) : Option ℕ := none

/-- The sweep of `on_scroll` lines 214-218: every page `i < n` inside
`[loadStart, loadEnd]` gets `load_pixmap`, every other page `i < n` gets
`unload_pixmap`.  `cache` maps each global page to its entry and `ok`
gives each page's decode outcome. -/
def sweepCache (loadStart loadEnd w n : ℕ) (ok : ℕ → Bool) (cache : ℕ → Option ℕ) :
    ℕ → Option ℕ :=
  fun i =>
    if i < n then
      if loadStart ≤ i ∧ i ≤ loadEnd then load_pixmap_state w (ok i) (cache i)
      else unload_pixmap_state (cache i)
    else cache i

/-- The whole cache mutation of one `on_scroll` event (lines 192-218):
`start_page`/`end_page` by `pageAtOffset`, the window expanded by the
margin 5 and clamped (`load_start = max(0, start_page - 5)`,
`load_end = min(total_pages - 1, end_page + 5)`), then the sweep.
When `sizes = []` the early return at line 193 leaves the cache as is,
which coincides with the sweep over zero pages. -/
def onScrollSweep (sizes : List (ℕ × ℕ)) (w scrollPos visibleHeight : ℕ)
    (ok : ℕ → Bool) (cache : ℕ → Option ℕ) : ℕ → Option ℕ :=
  sweepCache
    (pageAtOffset (cumulativeHeights sizes w) sizes.length scrollPos - 5)
    (min (sizes.length - 1)
      (pageAtOffset (cumulativeHeights sizes w) sizes.length (scrollPos + visibleHeight) + 5))
    w sizes.length ok cache

/-- Lower-case a string, character by character (`f.lower()`). -/
def lowerStr (s : String) : String := ⟨s.data.map Char.toLower⟩

/-- `s.endswith(suffix)` on the underlying character lists. -/
def strEndsWith (s suf : String) : Bool := List.isSuffixOf suf.data s.data

/-- `f.lower().endswith(('.png', '.jpg', '.jpeg'))` (lines 122 and 152). -/
def isImageName (s : String) : Bool :=
  strEndsWith (lowerStr s) ".png" || strEndsWith (lowerStr s) ".jpg" ||
    strEndsWith (lowerStr s) ".jpeg"

/-- `f.lower().endswith(('.cbz', '.zip'))` (line 113). -/
def isArchiveName (s : String) : Bool :=
  strEndsWith (lowerStr s) ".cbz" || strEndsWith (lowerStr s) ".zip"

/-- Lexicographic code-point order on character lists (Python's string
order, restricted to the names compared here). -/
def charsLt : List Char → List Char → Bool
  | [], [] => false
  | [], _ :: _ => true
  | _ :: _, [] => false
  | a :: as, b :: bs =>
      if a.toNat < b.toNat then true
      else if b.toNat < a.toNat then false
      else charsLt as bs

/-- `s < t` on strings, via `charsLt` on the underlying characters. -/
def strLt (s t : String) : Bool := charsLt s.data t.data

/-- Insert into an ascending list, keeping earlier equal elements first. -/
def insertSorted (s : String) : List String → List String
  | [] => [s]
  | t :: rest => if strLt t s then t :: insertSorted s rest else s :: t :: rest

/-- Python's `sorted` on names (stable ascending sort). -/
def sortNames : List String → List String
  | [] => []
  | s :: rest => insertSorted s (sortNames rest)

/-- The recognized, name-sorted image entries of an archive name list
(`sorted([f for f in zip_file.namelist() if ...])`, lines 122 / 152). -/
def imageEntries (names : List String) : List String :=
  sortNames (names.filter isImageName)

/-- The per-image dimension probe of `load_folder` lines 127-134: a probe
failure appends the `(0, 0)` fallback instead of raising. -/
def probeSizes (probe : String → Option (ℕ × ℕ)) : List String → List (ℕ × ℕ)
  | [] => []
  | img :: rest => (probe img).getD (0, 0) :: probeSizes probe rest

/-- The per-image dimension probe of `load_single_cbz` lines 156-161: no
`try`/`except`, so the first probe failure aborts the whole list. -/
def probeSizesStrict (probe : String → Option (ℕ × ℕ)) :
    List String → Option (List (ℕ × ℕ))
  | [] => some []
  | img :: rest =>
      match probe img with
      | none => none
      | some d => (probeSizesStrict probe rest).map (d :: ·)

/-- One element of `self.cbzs` (line 135 / 162). -/
structure LoadedCbz where
  images : List String
  page_sizes : List (ℕ × ℕ)
  file_name : String
deriving Repr, DecidableEq

/-- The catalog fields of `CBZViewer` built by the loaders: `self.cbzs`,
`self.page_to_file_map`, `self.file_page_starts`, and the running
`global_page_idx`, which `load_folder` finally stores as
`self.total_pages`. -/
structure CatalogState where
  cbzs : List LoadedCbz
  page_to_file_map : List (ℕ × ℕ)
  file_page_starts : List ℕ
  total_pages : ℕ
deriving Repr, DecidableEq

/-- The loop body of `load_folder` lines 117-140 over the sorted archive
file list.  `openArchive` is the archive reader: `none` models
`zipfile.ZipFile` raising (the `except: continue` at lines 120-121);
`some names` is the name list.  Archives with zero recognized images are
skipped (lines 123-125); kept archives append their pages. -/
def load_folder_aux (openArchive : String → Option (List String))
    (probe : String → String → Option (ℕ × ℕ)) :
    List String → CatalogState → CatalogState
  | [], acc => acc
  | f :: rest, acc =>
      match openArchive f with
      | none => load_folder_aux openArchive probe rest acc
      | some names =>
          let images := imageEntries names
          if images = [] then load_folder_aux openArchive probe rest acc
          else
            let fileIdx := acc.cbzs.length
            load_folder_aux openArchive probe rest
              { cbzs := acc.cbzs ++ [⟨images, probeSizes (probe f) images, f⟩]
                page_to_file_map :=
                  acc.page_to_file_map ++ (List.range images.length).map (fileIdx, ·)
                file_page_starts := acc.file_page_starts ++ [acc.total_pages + images.length]
                total_pages := acc.total_pages + images.length }

/-- `CBZViewer.load_folder` (lines 111-148): filter the folder listing to
archive extensions, sort by name, then run the loading loop from the
empty catalog (`file_page_starts = [0]`). -/
def load_folder (listing : List String) (openArchive : String → Option (List String))
    (probe : String → String → Option (ℕ × ℕ)) : CatalogState :=
  load_folder_aux openArchive probe (sortNames (listing.filter isArchiveName))
    { cbzs := [], page_to_file_map := [], file_page_starts := [0], total_pages := 0 }

/-- `CBZViewer.load_single_cbz` (lines 150-169).  `Except.error ()` models
an uncaught exception propagating out of the method: `zipfile.ZipFile`
failing (line 151) or any dimension probe failing (lines 157-161, no
`try`/`except` on this path).  Zero recognized images returns early with
the catalog fields untouched (empty). -/
def load_single_cbz (path : String) (openArchive : String → Option (List String))
    (probe : String → String → Option (ℕ × ℕ)) : Except Unit CatalogState :=
  match openArchive path with
  | none => .error ()
  | some names =>
      let images := imageEntries names
      if images = [] then
        .ok { cbzs := [], page_to_file_map := [], file_page_starts := [], total_pages := 0 }
      else
        match probeSizesStrict (probe path) images with
        | none => .error ()
        | some sizes =>
            .ok { cbzs := [⟨images, sizes, path⟩]
                  page_to_file_map := (List.range images.length).map (0, ·)
                  file_page_starts := [0, images.length]
                  total_pages := images.length }

/-- Concrete archive reader for the spec's concatenation scenario:
archive A holds 3 images, archive B zero recognized images, archive C
2 images; anything else fails to open. -/
def openABC : String → Option (List String) :=
  fun f =>
    if f = "A.cbz" then some ["a2.png", "a1.png", "a3.png"]
    else if f = "B.cbz" then some ["notes.txt"]
    else if f = "C.cbz" then some ["c1.png", "c2.png"]
    else none

/-- Concrete dimension probe that always reports 800×1200. -/
def probeConst : String → String → Option (ℕ × ℕ) := fun _ _ => some (800, 1200)

/-- The parsed content of `.cbzviewer_state.json`: a JSON object whose
`scroll_pos` field may be missing (`state.get('scroll_pos', 0)` then
defaults it to 0, line 248). -/
structure StoredState where
  scroll_pos : Option ℤ
deriving Repr, DecidableEq

/-- The persistence store: per folder path, `none` when the state file
does not exist (`os.path.exists` false, line 244), `some none` when it
exists but `json.load` raises, `some (some st)` when it parses. -/
def SessionStore : Type := String → Option (Option StoredState)

/-- The store mutation of `CBZViewer.closeEvent` (lines 255-265):
`folderPath` is `self.folder_path` (`none` after a single-archive load);
only a folder load writes `{'scroll_pos': scroll_pos}` under the folder's
fixed state-file name. -/
def save_state (folderPath : Option String) (scrollPos : ℤ) (store : SessionStore) :
    SessionStore :=
  match folderPath with
  | none => store
  | some p => fun q => if q = p then some (some ⟨some scrollPos⟩) else store q

/-- `CBZViewer.restore_state` (lines 241-253): the scroll position it
restores, `none` when no restoration happens (no folder path, missing
file, or a parse error caught at line 252). -/
def restore_state (folderPath : Option String) (store : SessionStore) : Option ℤ :=
  match folderPath with
  | none => none
  | some p =>
      match store p with
      | none => none
      | some none => none
      | some (some st) => some (st.scroll_pos.getD 0)

/-! ### Basic lemmas about the layout model -/

/-- The cumulative list from `acc` has one entry per page. -/
theorem cumulativeFrom_length (w acc : ℕ) (sizes : List (ℕ × ℕ)) :
    (cumulativeFrom w acc sizes).length = sizes.length := by
  induction sizes generalizing acc with
  | nil => rfl
  | cons p rest ih => cases p with | mk ow oh => simp [cumulativeFrom, ih]

/-- The final running total is the last entry of the cumulative list. -/
theorem cumulativeFrom_getLastD (w acc : ℕ) (sizes : List (ℕ × ℕ)) :
    (cumulativeFrom w acc sizes).getLastD acc = running_total w acc sizes := by
  induction sizes generalizing acc with
  | nil => rfl
  | cons p rest ih =>
      cases p with | mk ow oh =>
        simp only [cumulativeFrom, running_total, List.getLastD_cons]
        exact ih (acc + scaledHeight w ow oh)

/-- The last entry of `cumulative_heights` is the `cumulative` total. -/
theorem cumulativeHeights_getLastD (sizes : List (ℕ × ℕ)) (w : ℕ) :
    (cumulativeHeights sizes w).getLastD 0 = running_total w 0 sizes := by
  simp only [cumulativeHeights, List.getLastD_cons]
  exact cumulativeFrom_getLastD w 0 sizes

/-- The running total only grows from its seed. -/
theorem running_total_le (w acc : ℕ) (sizes : List (ℕ × ℕ)) :
    acc ≤ running_total w acc sizes := by
  induction sizes generalizing acc with
  | nil => exact le_refl acc
  | cons p rest ih =>
      cases p with | mk ow oh =>
        exact le_trans (Nat.le_add_right acc _) (ih (acc + scaledHeight w ow oh))

/-- The cumulative list from any seed is non-decreasing seed included. -/
theorem cumulativeFrom_chain (w acc : ℕ) (sizes : List (ℕ × ℕ)) :
    List.Chain' (· ≤ ·) (acc :: cumulativeFrom w acc sizes) := by
  induction sizes generalizing acc with
  | nil => exact List.chain'_singleton acc
  | cons p rest ih =>
      cases p with | mk ow oh =>
        simp only [cumulativeFrom, List.chain'_cons]
        exact ⟨Nat.le_add_right acc _, ih (acc + scaledHeight w ow oh)⟩

/-- Each cumulative entry is the previous entry plus that page's scaled
height, for any seed `acc`. -/
theorem cumulativeFrom_getD_succ (w acc : ℕ) (sizes : List (ℕ × ℕ)) (i : ℕ)
    (hi : i < sizes.length) :
    (acc :: cumulativeFrom w acc sizes).getD (i + 1) 0 =
      (acc :: cumulativeFrom w acc sizes).getD i 0 +
        scaledHeight w (sizes.get ⟨i, hi⟩).1 (sizes.get ⟨i, hi⟩).2 := by
  induction sizes generalizing acc i with
  | nil => exact absurd hi (Nat.not_lt_zero i)
  | cons p rest ih =>
      cases p with | mk ow oh =>
        cases i with
        | zero => simp [cumulativeFrom]
        | succ j =>
            have hj : j < rest.length := Nat.lt_of_succ_lt_succ hi
            simpa [cumulativeFrom] using ih (acc + scaledHeight w ow oh) j hj

/-- C2, corrected.  The height the layout assigns to page `i` — the
increment of the cumulative table — is the TRUNCATED quotient
`naturalHeight * viewportWidth / naturalWidth` when both natural
dimensions are positive; the fixed fallback `100` applies exactly when
`naturalHeight = 0` (not `naturalWidth`), and a zero `naturalWidth` with
positive `naturalHeight` yields scale factor 1, i.e. the natural height
itself. -/
theorem c2_layout_height_amended (sizes : List (ℕ × ℕ)) (w i : ℕ)
    (hi : i < sizes.length) :
    (cumulativeHeights sizes w).getD (i + 1) 0 =
      (cumulativeHeights sizes w).getD i 0 +
        (if 0 < (sizes.get ⟨i, hi⟩).2 then
          (if 0 < (sizes.get ⟨i, hi⟩).1 then
            (sizes.get ⟨i, hi⟩).2 * w / (sizes.get ⟨i, hi⟩).1
          else (sizes.get ⟨i, hi⟩).2)
        else 100) :=
  cumulativeFrom_getD_succ w 0 sizes i hi

/-- C2 amended, witnessed on one page of natural size 1600×2400 at
viewport width 800: the table steps from 0 to 1200. -/
theorem c2_layout_height_amended_witness :
    (cumulativeHeights [(1600, 2400)] 800).getD 1 0 =
      (cumulativeHeights [(1600, 2400)] 800).getD 0 0 +
        (if 0 < ((1600, 2400) : ℕ × ℕ).2 then
          (if 0 < ((1600, 2400) : ℕ × ℕ).1 then
            ((1600, 2400) : ℕ × ℕ).2 * 800 / ((1600, 2400) : ℕ × ℕ).1
          else ((1600, 2400) : ℕ × ℕ).2)
        else 100) :=
  c2_layout_height_amended [(1600, 2400)] 800 0 (by decide)

/-- C2 is false as stated: at natural size 2×1 and viewport width 3 the
code truncates `1.5` to `1` while the claim's `round` gives `2`; and at
natural width 0 with natural height 50 the code yields 50, not the
claimed fixed fallback 100. -/
theorem c2_counterexample :
    scaledHeight 3 2 1 ≠ scaledHeightSpec 3 2 1 ∧ scaledHeight 5 0 50 ≠ 100 := by
  decide

/-- C3, corrected.  The total content height is the last cumulative entry
when that is positive, and otherwise the fallback is `100`, not `1`. -/
theorem c3_total_height_amended (sizes : List (ℕ × ℕ)) (w : ℕ) :
    total_height sizes w =
      if 0 < (cumulativeHeights sizes w).getLastD 0 then
        (cumulativeHeights sizes w).getLastD 0
      else 100 := by
  rw [cumulativeHeights_getLastD]; rfl

/-- C3 is false as stated: with zero pages the code's total height is
100, while the claimed `max(cumulative[totalPages], 1)` is 1. -/
theorem c3_counterexample :
    total_height [] 800 = 100 ∧
      max ((cumulativeHeights [] 800).getLastD 0) 1 = 1 := by
  decide

/-- C4, corrected.  The cumulative table has length `totalPages + 1`,
starts at 0 and is non-decreasing; its last entry equals the total
content height whenever that last entry is positive (when every scaled
height is 0 the total content height is the fallback 100 instead). -/
theorem c4_cumulative_table_amended (sizes : List (ℕ × ℕ)) (w : ℕ) :
    (cumulativeHeights sizes w).length = sizes.length + 1 ∧
    (cumulativeHeights sizes w).head? = some 0 ∧
    List.Chain' (· ≤ ·) (cumulativeHeights sizes w) ∧
    (0 < (cumulativeHeights sizes w).getLastD 0 →
      (cumulativeHeights sizes w).getLastD 0 = total_height sizes w) := by
  refine ⟨?_, rfl, cumulativeFrom_chain w 0 sizes, ?_⟩
  · simp [cumulativeHeights, cumulativeFrom_length]
  · intro hpos
    rw [cumulativeHeights_getLastD] at hpos ⊢
    simp [total_height, hpos]

/-- C4 amended, witnessed on one 1600×2400 page at viewport width 800. -/
theorem c4_cumulative_table_amended_witness :
    (cumulativeHeights [(1600, 2400)] 800).getLastD 0 =
      total_height [(1600, 2400)] 800 :=
  (c4_cumulative_table_amended [(1600, 2400)] 800).2.2.2 (by decide)

/-- C4 is false as stated: for the non-empty page sequence of one
1000×1 page at viewport width 10, every scaled height truncates to 0, so
the table's last entry is 0 while the total content height is 100. -/
theorem c4_counterexample :
    ([((1000 : ℕ), (1 : ℕ))] ≠ ([] : List (ℕ × ℕ))) ∧
      (cumulativeHeights [(1000, 1)] 10).getLastD 0 ≠ total_height [(1000, 1)] 10 := by
  decide

/-! ### Lemmas about the offset-to-page lookup -/

/-- A found first index is inside the list. -/
theorem findFirstGt_some_lt_length {o : ℕ} {l : List ℕ} {i : ℕ}
    (h : findFirstGt o l = some i) : i < l.length := by
  induction l generalizing i with
  | nil => simp [findFirstGt] at h
  | cons c rest ih =>
      by_cases hc : o < c
      · simp only [findFirstGt, if_pos hc] at h
        obtain rfl : (0 : ℕ) = i := Option.some.inj h
        simp
      · simp [findFirstGt, hc, Option.map_eq_some'] at h
        obtain ⟨j, hj, rfl⟩ := h
        simpa using Nat.succ_lt_succ (ih hj)

/-- A smaller offset finds an index at least as early. -/
theorem findFirstGt_mono {o₁ o₂ : ℕ} (h : o₁ ≤ o₂) {l : List ℕ} {j : ℕ}
    (hj : findFirstGt o₂ l = some j) :
    ∃ i, i ≤ j ∧ findFirstGt o₁ l = some i := by
  induction l generalizing j with
  | nil => simp [findFirstGt] at hj
  | cons c rest ih =>
      by_cases hc1 : o₁ < c
      · exact ⟨0, Nat.zero_le j, by simp [findFirstGt, hc1]⟩
      · have hc2 : ¬ o₂ < c := fun hlt => hc1 (Nat.lt_of_le_of_lt h hlt)
        simp [findFirstGt, hc2, Option.map_eq_some'] at hj
        obtain ⟨j', hj', rfl⟩ := hj
        obtain ⟨i', hile, hi'⟩ := ih hj'
        exact ⟨i' + 1, Nat.succ_le_succ hile, by simp [findFirstGt, hc1, hi']⟩

/-- If a smaller offset exhausts the list, so does a larger one. -/
theorem findFirstGt_none_mono {o₁ o₂ : ℕ} (h : o₁ ≤ o₂) {l : List ℕ}
    (hn : findFirstGt o₁ l = none) : findFirstGt o₂ l = none := by
  induction l with
  | nil => rfl
  | cons c rest ih =>
      by_cases hc1 : o₁ < c
      · simp [findFirstGt, hc1] at hn
      · have hc2 : ¬ o₂ < c := fun hlt => hc1 (Nat.lt_of_le_of_lt h hlt)
        simp [findFirstGt, hc1, Option.map_eq_none'] at hn
        simp [findFirstGt, hc2, Option.map_eq_none', ih hn]

/-- The lookup is monotone in the offset whenever the declared page count
covers the table (as it does for `cumulativeHeights`). -/
theorem pageAtOffset_mono {cum : List ℕ} {n : ℕ} (hlen : cum.length ≤ n + 1)
    {o₁ o₂ : ℕ} (h : o₁ ≤ o₂) :
    pageAtOffset cum n o₁ ≤ pageAtOffset cum n o₂ := by
  cases h2 : findFirstGt o₂ cum with
  | some j =>
      obtain ⟨i, hij, h1⟩ := findFirstGt_mono h h2
      simp only [pageAtOffset, h1, h2]
      exact Nat.sub_le_sub_right hij 1
  | none =>
      cases h1 : findFirstGt o₁ cum with
      | some i =>
          have hlt := findFirstGt_some_lt_length h1
          simp only [pageAtOffset, h1, h2]
          omega
      | none => simp only [pageAtOffset, h1, h2, le_refl]

/-- With a positive seed and positive heights, the first cumulative entry
above `total - 1` is the final one. -/
theorem findFirstGt_total (w : ℕ) {acc : ℕ} (hacc : 0 < acc)
    (sizes : List (ℕ × ℕ))
    (hpos : ∀ p ∈ sizes, 0 < scaledHeight w p.1 p.2) :
    findFirstGt (running_total w acc sizes - 1) (acc :: cumulativeFrom w acc sizes) =
      some sizes.length := by
  induction sizes generalizing acc with
  | nil =>
      simp [running_total, cumulativeFrom, findFirstGt, Nat.sub_lt hacc Nat.one_pos]
  | cons p rest ih =>
      cases p with | mk ow oh =>
      have hh : 0 < scaledHeight w ow oh := hpos (ow, oh) (List.mem_cons_self _ _)
      have hrt : acc + scaledHeight w ow oh ≤
          running_total w (acc + scaledHeight w ow oh) rest :=
        running_total_le w _ rest
      have hnot : ¬ (running_total w (acc + scaledHeight w ow oh) rest - 1 < acc) := by
        omega
      rw [show running_total w acc ((ow, oh) :: rest) =
            running_total w (acc + scaledHeight w ow oh) rest from rfl]
      rw [show cumulativeFrom w acc ((ow, oh) :: rest) =
            (acc + scaledHeight w ow oh) ::
              cumulativeFrom w (acc + scaledHeight w ow oh) rest from rfl]
      rw [findFirstGt, if_neg hnot]
      rw [ih (by omega) (fun q hq => hpos q (List.mem_cons_of_mem _ hq))]
      simp

/-- With every scaled height positive, offset 0 maps to page 0. -/
theorem pageAtOffset_zero (sizes : List (ℕ × ℕ)) (w : ℕ)
    (hpos : ∀ p ∈ sizes, 0 < scaledHeight w p.1 p.2) :
    pageAtOffset (cumulativeHeights sizes w) sizes.length 0 = 0 := by
  cases sizes with
  | nil => rfl
  | cons p rest =>
      cases p with | mk ow oh =>
      have hh : 0 < scaledHeight w ow oh := hpos (ow, oh) (List.mem_cons_self _ _)
      simp [pageAtOffset, cumulativeHeights, cumulativeFrom, findFirstGt, hh]

/-- With every scaled height positive, offset `total_height - 1` maps to
the last page. -/
theorem pageAtOffset_last (sizes : List (ℕ × ℕ)) (w : ℕ)
    (hpos : ∀ p ∈ sizes, 0 < scaledHeight w p.1 p.2) :
    pageAtOffset (cumulativeHeights sizes w) sizes.length
      (total_height sizes w - 1) = sizes.length - 1 := by
  cases sizes with
  | nil => rfl
  | cons p rest =>
      cases p with | mk ow oh =>
      have hh : 0 < scaledHeight w ow oh := hpos (ow, oh) (List.mem_cons_self _ _)
      have hrt : scaledHeight w ow oh ≤
          running_total w (scaledHeight w ow oh) rest :=
        running_total_le w _ rest
      have hrun : running_total w 0 ((ow, oh) :: rest) =
          running_total w (scaledHeight w ow oh) rest := by
        rw [show running_total w 0 ((ow, oh) :: rest) =
              running_total w (0 + scaledHeight w ow oh) rest from rfl, Nat.zero_add]
      have hcum : cumulativeHeights ((ow, oh) :: rest) w =
          0 :: scaledHeight w ow oh ::
            cumulativeFrom w (scaledHeight w ow oh) rest := by
        rw [show cumulativeHeights ((ow, oh) :: rest) w =
              0 :: (0 + scaledHeight w ow oh) ::
                cumulativeFrom w (0 + scaledHeight w ow oh) rest from rfl, Nat.zero_add]
      have htot : total_height ((ow, oh) :: rest) w =
          running_total w (scaledHeight w ow oh) rest := by
        have h0 : 0 < running_total w 0 ((ow, oh) :: rest) := by rw [hrun]; omega
        unfold total_height
        rw [if_pos h0, hrun]
      have hfind := findFirstGt_total w hh rest
        (fun q hq => hpos q (List.mem_cons_of_mem _ hq))
      have hnot : ¬ (running_total w (scaledHeight w ow oh) rest - 1 < 0) :=
        Nat.not_lt_zero _
      have hstep : findFirstGt (running_total w (scaledHeight w ow oh) rest - 1)
          (0 :: scaledHeight w ow oh ::
            cumulativeFrom w (scaledHeight w ow oh) rest) =
          some (rest.length + 1) := by
        rw [findFirstGt, if_neg hnot, hfind]
        rfl
      rw [htot, hcum]
      simp only [pageAtOffset, hstep]
      simp

/-- C5, corrected.  The offset-to-page lookup over the recomputed
cumulative table is monotonically non-decreasing in the offset for EVERY
page sequence; and when every page's scaled height is positive it sends
offset 0 to page 0 and offset `totalContentHeight - 1` to the last page
(the two endpoint equations can fail when a page's scaled height
truncates to 0). -/
theorem c5_page_at_offset_amended (sizes : List (ℕ × ℕ)) (w : ℕ) :
    ((∀ p ∈ sizes, 0 < scaledHeight w p.1 p.2) →
      pageAtOffset (cumulativeHeights sizes w) sizes.length 0 = 0 ∧
      pageAtOffset (cumulativeHeights sizes w) sizes.length
        (total_height sizes w - 1) = sizes.length - 1) ∧
    ∀ o₁ o₂ : ℕ, o₁ ≤ o₂ →
      pageAtOffset (cumulativeHeights sizes w) sizes.length o₁ ≤
        pageAtOffset (cumulativeHeights sizes w) sizes.length o₂ := by
  refine ⟨fun hpos => ⟨pageAtOffset_zero sizes w hpos, pageAtOffset_last sizes w hpos⟩, ?_⟩
  intro o₁ o₂ h
  have hlen : (cumulativeHeights sizes w).length ≤ sizes.length + 1 := by
    simp [cumulativeHeights, cumulativeFrom_length]
  exact pageAtOffset_mono hlen h

/-- C5 amended, witnessed on one 1600×2400 page at viewport width 800
(scaled height 1200, total height 1200): offset 0 maps to page 0, and the
lookup is monotone between offsets 3 and 7. -/
theorem c5_page_at_offset_amended_witness :
    pageAtOffset (cumulativeHeights [(1600, 2400)] 800) 1 0 = 0 ∧
      pageAtOffset (cumulativeHeights [(1600, 2400)] 800) 1 3 ≤
        pageAtOffset (cumulativeHeights [(1600, 2400)] 800) 1 7 :=
  ⟨((c5_page_at_offset_amended [(1600, 2400)] 800).1 (by decide)).1,
   (c5_page_at_offset_amended [(1600, 2400)] 800).2 3 7 (by decide)⟩

/-- C5 is false as stated: for the two-page sequence of a 1×5 page and a
1000×1 page at viewport width 1, the second page's height truncates to 0,
the cumulative table is `[0, 5, 5]` and the total content height is 5,
so the lookup at offset `5 - 1` returns page 0, not `totalPages - 1 = 1`. -/
theorem c5_counterexample :
    pageAtOffset (cumulativeHeights [(1, 5), (1000, 1)] 1) 2
        (total_height [(1, 5), (1000, 1)] 1 - 1) = 0 ∧ (2 : ℕ) - 1 = 1 := by
  decide

/-! ### C1: the window sweep -/

/-- C1, confirmed.  For every page `i` of the sequence, one `on_scroll`
event requests materialization (`load_pixmap`) exactly when
`max(0, startPage - 5) ≤ i ≤ min(totalPages - 1, endPage + 5)` with
`startPage`/`endPage` given by the offset-to-page lookup, and otherwise
releases the page, so that no page outside the window remains
materialized after the sweep. -/
theorem c1_window_sweep (sizes : List (ℕ × ℕ)) (w scrollPos visibleHeight : ℕ)
    (ok : ℕ → Bool) (cache : ℕ → Option ℕ) (i : ℕ) (hi : i < sizes.length) :
    (max 0 (pageAtOffset (cumulativeHeights sizes w) sizes.length scrollPos - 5) ≤ i ∧
        i ≤ min (sizes.length - 1)
          (pageAtOffset (cumulativeHeights sizes w) sizes.length
            (scrollPos + visibleHeight) + 5) →
      onScrollSweep sizes w scrollPos visibleHeight ok cache i =
        load_pixmap_state w (ok i) (cache i)) ∧
    (¬ (max 0 (pageAtOffset (cumulativeHeights sizes w) sizes.length scrollPos - 5) ≤ i ∧
        i ≤ min (sizes.length - 1)
          (pageAtOffset (cumulativeHeights sizes w) sizes.length
            (scrollPos + visibleHeight) + 5)) →
      onScrollSweep sizes w scrollPos visibleHeight ok cache i = none) := by
  rw [Nat.zero_max]
  constructor
  · intro h
    simp only [onScrollSweep, sweepCache, if_pos hi, if_pos h]
  · intro h
    simp only [onScrollSweep, sweepCache, if_pos hi, if_neg h, unload_pixmap_state]

/-- C1, witnessed: two 800×1200 pages at width 800, scroll 0, viewport
600; page 0 is inside the window and gets a materialization request. -/
theorem c1_window_sweep_witness :
    onScrollSweep [(800, 1200), (800, 1200)] 800 0 600 (fun _ => true) (fun _ => none) 0 =
      load_pixmap_state 800 true none :=
  (c1_window_sweep [(800, 1200), (800, 1200)] 800 0 600 (fun _ => true) (fun _ => none) 0
    (by decide)).1 (by decide)

/-! ### C8: decode failure handling -/

/-- C8, corrected.  A decode/scale failure is absorbed (the embedded cache
transition is total) and leaves the failing page's cache entry UNCHANGED —
hence still absent if it was absent, but a stale entry decoded for an
earlier viewport width stays present rather than becoming absent — and
the sweep's effect on page `i` depends only on page `i`'s own decode
outcome, so no other page's entry is affected. -/
theorem c8_decode_failure_amended (w : ℕ) (prev : Option ℕ)
    (sizes : List (ℕ × ℕ)) (scrollPos visibleHeight : ℕ)
    (ok₁ ok₂ : ℕ → Bool) (cache : ℕ → Option ℕ) (i : ℕ) (h : ok₁ i = ok₂ i) :
    load_pixmap_state w false prev = prev ∧
    load_pixmap_state w false none = none ∧
    onScrollSweep sizes w scrollPos visibleHeight ok₁ cache i =
      onScrollSweep sizes w scrollPos visibleHeight ok₂ cache i := by
  refine ⟨?_, rfl, ?_⟩
  · by_cases hp : prev = some w <;> simp [load_pixmap_state, hp]
  · simp only [onScrollSweep, sweepCache, h]

/-- C8 amended, witnessed: a failed reload at width 800 over an entry
already decoded for width 800 leaves it as it was. -/
theorem c8_decode_failure_amended_witness :
    load_pixmap_state 800 false (some 800) = some 800 :=
  (c8_decode_failure_amended 800 (some 800) [] 0 0 (fun _ => false) (fun _ => false)
    (fun _ => none) 0 rfl).1

/-- C8 is false as stated: a page previously materialized for viewport
width 10 whose re-decode at width 20 fails keeps its stale entry — the
cache entry is not left absent. -/
theorem c8_counterexample : load_pixmap_state 20 false (some 10) ≠ none := by
  decide

/-! ### C7 and C10: session state -/

/-- C7, confirmed.  For a folder source, saving a non-negative scroll
offset and restoring from the same folder yields that offset; restoring
from a folder with no state file yields `none`; and for a single-archive
load (`folder_path = None`) neither save nor restore persists anything. -/
theorem c7_session_round_trip :
    (∀ (p : String) (v : ℤ) (store : SessionStore), 0 ≤ v →
      restore_state (some p) (save_state (some p) v store) = some v) ∧
    (∀ p : String, restore_state (some p) (fun _ => none) = none) ∧
    (∀ (v : ℤ) (store : SessionStore), save_state none v store = store) ∧
    (∀ store : SessionStore, restore_state none store = none) := by
  refine ⟨?_, ?_, ?_, ?_⟩
  · intro p v store _
    simp [restore_state, save_state]
  · intro p
    rfl
  · intro v store
    rfl
  · intro store
    rfl

/-- C7, witnessed: saving offset 742 for folder `"folder"` into an empty
store and restoring yields 742. -/
theorem c7_session_round_trip_witness :
    restore_state (some "folder") (save_state (some "folder") 742 (fun _ => none)) =
      some 742 :=
  c7_session_round_trip.1 "folder" 742 (fun _ => none) (by decide)

/-- C10, confirmed.  When the folder's state file exists and parses but
has no `scroll_pos` key, restoration is attempted with the default 0 —
the restored offset is `some 0`, not `none`. -/
theorem c10_missing_key_defaults_to_zero (p : String) (store : SessionStore)
    (h : store p = some (some ⟨none⟩)) :
    restore_state (some p) store = some 0 ∧ restore_state (some p) store ≠ none := by
  constructor
  · simp [restore_state, h]
  · simp [restore_state, h]

/-- C10, witnessed on a store whose only file parses to `{}`. -/
theorem c10_missing_key_defaults_to_zero_witness :
    restore_state (some "folder") (fun _ => some (some ⟨none⟩)) = some 0 :=
  (c10_missing_key_defaults_to_zero "folder" (fun _ => some (some ⟨none⟩)) rfl).1

/-! ### C6 and C9: catalog loading -/

/-- Kept archives record, for each image, its probed size or the `(0, 0)`
fallback; the loading loop preserves this for every kept archive. -/
theorem load_folder_aux_page_sizes (openArchive : String → Option (List String))
    (probe : String → String → Option (ℕ × ℕ)) (files : List String)
    (acc : CatalogState)
    (hacc : ∀ c ∈ acc.cbzs, c.page_sizes = probeSizes (probe c.file_name) c.images) :
    ∀ c ∈ (load_folder_aux openArchive probe files acc).cbzs,
      c.page_sizes = probeSizes (probe c.file_name) c.images := by
  induction files generalizing acc with
  | nil => exact hacc
  | cons f rest ih =>
      cases hopen : openArchive f with
      | none =>
          simp only [load_folder_aux, hopen]
          exact ih acc hacc
      | some names =>
          by_cases himg : imageEntries names = []
          · simp only [load_folder_aux, hopen, himg, if_pos]
            exact ih acc hacc
          · simp only [load_folder_aux, hopen, if_neg himg]
            apply ih
            intro c hc
            rcases List.mem_append.mp hc with h | h
            · exact hacc c h
            · rw [List.mem_singleton.mp h]

/-- If some entry's probe fails, the strict probing of `load_single_cbz`
fails as a whole. -/
theorem probeSizesStrict_eq_none (probe : String → Option (ℕ × ℕ)) {l : List String}
    {img : String} (hmem : img ∈ l) (hfail : probe img = none) :
    probeSizesStrict probe l = none := by
  induction l with
  | nil => cases hmem
  | cons a rest ih =>
      cases hmem with
      | head => simp [probeSizesStrict, hfail]
      | tail _ h =>
          cases hpa : probe a with
          | none => simp [probeSizesStrict, hpa]
          | some d => simp [probeSizesStrict, hpa, ih h]

/-- C9, corrected.  During a FOLDER load every kept archive's entries
carry their probed dimensions with failures recorded as `(0, 0)` (the
entry is kept, never dropped); but during a SINGLE-archive load a probe
failure propagates out of the loader and aborts the load instead. -/
theorem c9_probe_failure_amended :
    (∀ (listing : List String) (openArchive : String → Option (List String))
        (probe : String → String → Option (ℕ × ℕ)) (c : LoadedCbz),
      c ∈ (load_folder listing openArchive probe).cbzs →
        c.page_sizes = probeSizes (probe c.file_name) c.images) ∧
    (∀ (path : String) (openArchive : String → Option (List String))
        (probe : String → String → Option (ℕ × ℕ)) (names : List String) (img : String),
      openArchive path = some names → img ∈ imageEntries names →
        probe path img = none →
        load_single_cbz path openArchive probe = Except.error ()) := by
  constructor
  · intro listing openArchive probe c hc
    exact load_folder_aux_page_sizes openArchive probe _ _
      (fun c hc => absurd hc (List.not_mem_nil c)) c hc
  · intro path openArchive probe names img hopen hmem hfail
    have hne : imageEntries names ≠ [] := by
      intro h
      rw [h] at hmem
      exact List.not_mem_nil img hmem
    simp only [load_single_cbz, hopen, if_neg hne,
      probeSizesStrict_eq_none (probe path) hmem hfail]

/-- C9 amended, witnessed: a folder archive whose single image fails its
probe is kept with recorded dimensions `(0, 0)`. -/
theorem c9_probe_failure_amended_witness :
    (LoadedCbz.mk ["a.png"] [(0, 0)] "A.cbz").page_sizes =
      probeSizes ((fun (_ _ : String) => (none : Option (ℕ × ℕ))) "A.cbz")
        (LoadedCbz.mk ["a.png"] [(0, 0)] "A.cbz").images :=
  c9_probe_failure_amended.1 ["A.cbz"]
    (fun f => if f = "A.cbz" then some ["a.png"] else none)
    (fun _ _ => none) ⟨["a.png"], [(0, 0)], "A.cbz"⟩ (by decide)

/-- C9 is false as stated for the single-file path: a single archive
`X.cbz` holding one image whose dimension probe fails makes
`load_single_cbz` raise (no `(0, 0)` fallback, the page is not kept). -/
theorem c9_counterexample :
    load_single_cbz "X.cbz" (fun p => if p = "X.cbz" then some ["a.png"] else none)
      (fun _ _ => none) = Except.error () :=
  rfl

/-- C6, confirmed.  Archives that fail to open, and archives with zero
recognized image entries, are skipped by the folder-loading loop without
aborting it; the kept archives' entries concatenate in sorted-name order,
and in the A(3)/B(0)/C(2) scenario the global page count is 5 and global
page 3 resolves to local page 0 of archive C. -/
theorem c6_archive_concatenation :
    (∀ (openArchive : String → Option (List String))
        (probe : String → String → Option (ℕ × ℕ))
        (f : String) (rest : List String) (acc : CatalogState),
      openArchive f = none →
        load_folder_aux openArchive probe (f :: rest) acc =
          load_folder_aux openArchive probe rest acc) ∧
    (∀ (openArchive : String → Option (List String))
        (probe : String → String → Option (ℕ × ℕ))
        (f : String) (rest : List String) (acc : CatalogState) (names : List String),
      openArchive f = some names → imageEntries names = [] →
        load_folder_aux openArchive probe (f :: rest) acc =
          load_folder_aux openArchive probe rest acc) ∧
    (load_folder ["A.cbz", "B.cbz", "C.cbz"] openABC probeConst).total_pages = 5 ∧
    (load_folder ["A.cbz", "B.cbz", "C.cbz"] openABC probeConst).page_to_file_map.get? 3 =
      some (1, 0) ∧
    ((load_folder ["A.cbz", "B.cbz", "C.cbz"] openABC probeConst).cbzs.get? 1).map
      LoadedCbz.file_name = some "C.cbz" := by
  refine ⟨?_, ?_, by decide, by decide, by decide⟩
  · intro openArchive probe f rest acc hopen
    simp only [load_folder_aux, hopen]
  · intro openArchive probe f rest acc names hopen himg
    simp only [load_folder_aux, hopen, himg, if_pos]

/-- C6, witnessed: an archive that fails to open (`Z.cbz`) and an archive
with zero recognized images (`B.cbz`) are both skipped by the loop. -/
theorem c6_archive_concatenation_witness :
    load_folder_aux openABC probeConst ["Z.cbz"] ⟨[], [], [0], 0⟩ =
        load_folder_aux openABC probeConst [] ⟨[], [], [0], 0⟩ ∧
      load_folder_aux openABC probeConst ["B.cbz"] ⟨[], [], [0], 0⟩ =
        load_folder_aux openABC probeConst [] ⟨[], [], [0], 0⟩ :=
  ⟨c6_archive_concatenation.1 openABC probeConst "Z.cbz" [] ⟨[], [], [0], 0⟩ rfl,
   c6_archive_concatenation.2.1 openABC probeConst "B.cbz" [] ⟨[], [], [0], 0⟩
     ["notes.txt"] rfl rfl⟩
